import Mathlib

/-!
Shallow embedding of `miles.py`, a web crawler that downloads files of
selected media types found on a single page.

Conventions of the embedding:
* Python strings are Lean `String`s; the URL-parsing machinery works on
  `List Char` (Python's indexed view of a string).
* The HTTP transport (`requests.get`) is an external collaborator; it is
  passed in as an explicit function (`net` for per-file fetches, an
  `Option String` page response for the base page, where `none` models a
  falsy `Response`).
* `re.findall` is an external collaborator as well and is passed in as a
  function from a regex source string and a text to the list of matches
  in textual order.
* The file system is explicit state: an association list from path to
  byte content, plus the set of paths on which `open(..., 'wb')` raises
  `OSError`.
* Python exceptions are `Except.error`; machine floats are modelled as
  exact rationals; byte counts are `Nat`.
-/

deriving instance DecidableEq for Except

namespace Miles

/-! ## Python string helpers (over `List Char`) -/

/-- Split a list at the first occurrence of `t`: `splitOnce t s = some (a, b)`
iff `s = a ++ t :: b` with `t ∉ a`.  Models Python `s.split(t, 1)` when the
separator occurs, `none` when it does not (Python `t in s` is `isSome`). -/
def splitOnce (t : Char) : List Char → Option (List Char × List Char)
  | [] => none
  | c :: rest =>
    if c = t then some ([], rest)
    else (splitOnce t rest).map (fun p => (c :: p.1, p.2))

/-- Auxiliary accumulator version of `splitAll`. -/
def splitAllAux (t : Char) : List Char → List Char → List (List Char)
  | acc, [] => [acc.reverse]
  | acc, c :: rest =>
    if c = t then acc.reverse :: splitAllAux t [] rest
    else splitAllAux t (c :: acc) rest

/-- Python `s.split(t)` for a one-character separator: always yields at least
one (possibly empty) piece. -/
def splitAll (t : Char) (s : List Char) : List (List Char) :=
  splitAllAux t [] s

/-- Split a list at the last occurrence of `t` (Python `rfind`-based
splitting): `splitLast t s = some (pre, post)` with `s = pre ++ t :: post`
and `t ∉ post`. -/
def splitLast (t : Char) (s : List Char) : Option (List Char × List Char) :=
  match splitOnce t s.reverse with
  | none => none
  | some (a, b) => some (b.reverse, a.reverse)

/-! ## urllib.parse: `urlsplit` / `urlparse` / `urlunparse` / `urljoin`.

Faithful translation of CPython `urllib/parse.py` (the library that
`miles.py` delegates URL resolution to via `urljoin`), restricted to `str`
arguments with `allow_fragments=True`.  Omitted relative to CPython, with
justification:
* the removal of tab/CR/LF bytes from the *scheme default* argument: inside
  `urljoin` the default scheme is always an already-cleaned scheme, so the
  step is the identity there (the url argument itself is cleaned below);
* the `ValueError`s for unbalanced `[`/`]` in a netloc and for invalid
  bracketed hosts (out of scope: no claim concerns such URLs). -/

/-- Python `scheme_chars`: characters allowed in a scheme after the first. -/
def isSchemeChar (c : Char) : Bool :=
  c.isAlpha || c.isDigit || c = '+' || c = '-' || c = '.'

/-- CPython `_UNSAFE_URL_BYTES_TO_REMOVE`: `urlsplit` deletes every tab, CR
and LF from its input before parsing. -/
def removeUnsafe (s : List Char) : List Char :=
  s.filter (fun c => !(c = '\t' || c = '\r' || c = '\n'))

/-- Scheme detection of CPython `urlsplit`: a `:` at position `i > 0`, a
leading ASCII letter, and only scheme characters before the colon; the
scheme is lower-cased.  Returns `some (scheme, rest-after-colon)`. -/
def splitScheme (url : List Char) : Option (List Char × List Char) :=
  match splitOnce ':' url with
  | none => none
  | some (before, after) =>
    match before with
    | [] => none
    | c0 :: cs =>
      if c0.isAlpha && cs.all isSchemeChar then
        some ((c0 :: cs).map Char.toLower, after)
      else none

/-- CPython `_splitnetloc` on the text after the leading `//`: the netloc
extends to the first `/`, `?` or `#`. -/
def isNetlocEnd (c : Char) : Bool :=
  c = '/' || c = '?' || c = '#'

/-- Split off the network location: `(netloc, rest)`. -/
def splitNetloc (s : List Char) : List Char × List Char :=
  (s.takeWhile (fun c => !isNetlocEnd c), s.dropWhile (fun c => !isNetlocEnd c))

/-- Result of `urlsplit`: scheme, netloc, path, query, fragment. -/
structure SplitResult where
  scheme : List Char
  netloc : List Char
  path : List Char
  query : List Char
  fragment : List Char
deriving DecidableEq

/-- Result of `urlparse`: `urlsplit` plus the `;params` of the last path
segment. -/
structure ParseResult where
  scheme : List Char
  netloc : List Char
  path : List Char
  params : List Char
  query : List Char
  fragment : List Char
deriving DecidableEq

/-- Stage of `urlsplit` after scheme and netloc handling: split off the
fragment at the first `#`, then the query at the first `?`. -/
def urlsplitFrag (scheme netloc rest : List Char) : SplitResult :=
  match splitOnce '#' rest with
  | some (a, frag) =>
    match splitOnce '?' a with
    | some (p, q) => ⟨scheme, netloc, p, q, frag⟩
    | none => ⟨scheme, netloc, a, [], frag⟩
  | none =>
    match splitOnce '?' rest with
    | some (p, q) => ⟨scheme, netloc, p, q, []⟩
    | none => ⟨scheme, netloc, rest, [], []⟩

/-- Stage of `urlsplit` after scheme handling: if the remainder starts with
`//`, the netloc runs up to the first `/`, `?` or `#`. -/
def urlsplitRest (scheme rest : List Char) : SplitResult :=
  if rest.take 2 = ['/', '/'] then
    urlsplitFrag scheme (splitNetloc (rest.drop 2)).1 (splitNetloc (rest.drop 2)).2
  else
    urlsplitFrag scheme [] rest

/-- CPython `urlsplit(url, scheme, allow_fragments=True)`. -/
def urlsplit (url0 default_scheme : List Char) : SplitResult :=
  match splitScheme (removeUnsafe url0) with
  | some (s, r) => urlsplitRest s r
  | none => urlsplitRest default_scheme (removeUnsafe url0)

/-- Schemes for which `urlparse` splits `;params` off the path
(CPython `uses_params`). -/
def uses_params : List (List Char) :=
  ["", "ftp", "hdl", "prospero", "http", "imap", "https", "shttp", "rtsp",
   "rtspu", "sip", "sips", "mms", "sftp", "tel"].map String.data

/-- Schemes that take part in relative-URL resolution
(CPython `uses_relative`). -/
def uses_relative : List (List Char) :=
  ["", "ftp", "http", "gopher", "nntp", "imap", "wais", "file", "https",
   "shttp", "mms", "prospero", "rtsp", "rtspu", "sftp", "svn", "svn+ssh",
   "ws", "wss"].map String.data

/-- Schemes that carry a network location (CPython `uses_netloc`). -/
def uses_netloc : List (List Char) :=
  ["", "ftp", "http", "gopher", "nntp", "telnet", "imap", "wais", "file",
   "mms", "https", "shttp", "snews", "prospero", "rtsp", "rtspu", "rsync",
   "svn", "svn+ssh", "sftp", "nfs", "git", "git+ssh", "ws", "wss",
   "itms-services"].map String.data

/-- CPython `_splitparams`: split `;params` off the last path segment (only
called when `;` occurs in the path). -/
def splitparams (url : List Char) : List Char × List Char :=
  match splitLast '/' url with
  | some (pre, post) =>
    match splitOnce ';' post with
    | none => (url, [])
    | some (a, b) => (pre ++ '/' :: a, b)
  | none =>
    match splitOnce ';' url with
    | none => (url, [])
    | some (a, b) => (a, b)

/-- The `urlparse` view of an `urlsplit` result. -/
def parseOfSplit (s : SplitResult) : ParseResult :=
  if s.scheme ∈ uses_params ∧ ';' ∈ s.path then
    ⟨s.scheme, s.netloc, (splitparams s.path).1, (splitparams s.path).2,
     s.query, s.fragment⟩
  else
    ⟨s.scheme, s.netloc, s.path, [], s.query, s.fragment⟩

/-- CPython `urlparse(url, scheme, allow_fragments=True)`. -/
def urlparse (url default_scheme : List Char) : ParseResult :=
  parseOfSplit (urlsplit url default_scheme)

/-- CPython `urlunsplit`. -/
def urlunsplit (scheme netloc path query fragment : List Char) : List Char :=
  let url1 :=
    if netloc ≠ [] ∨ path.take 2 = ['/', '/'] then
      let p := match path with
        | [] => []
        | c :: cs => if c ≠ '/' then '/' :: c :: cs else c :: cs
      '/' :: '/' :: (netloc ++ p)
    else path
  let url2 := if scheme ≠ [] then scheme ++ ':' :: url1 else url1
  let url3 := if query ≠ [] then url2 ++ '?' :: query else url2
  if fragment ≠ [] then url3 ++ '#' :: fragment else url3

/-- CPython `urlunparse`. -/
def urlunparse (r : ParseResult) : List Char :=
  urlunsplit r.scheme r.netloc
    (if r.params ≠ [] then r.path ++ ';' :: r.params else r.path)
    r.query r.fragment

/-- The `segments[1:-1] = filter(None, segments[1:-1])` step of `urljoin`:
drop empty segments, keeping the first and last elements. -/
def filterMiddleAux : List (List Char) → List (List Char)
  | [] => []
  | [z] => [z]
  | s :: z :: rest =>
    if s = [] then filterMiddleAux (z :: rest)
    else s :: filterMiddleAux (z :: rest)

/-- Apply `filterMiddleAux` to everything after the first element. -/
def filterMiddle : List (List Char) → List (List Char)
  | [] => []
  | a :: rest => a :: filterMiddleAux rest

/-- The segment-resolution loop of `urljoin`: `..` pops (silently on an
empty stack, matching the `except IndexError: pass`), `.` is skipped,
anything else is pushed.  The accumulator is the reversed stack. -/
def resolveSegments : List (List Char) → List (List Char) → List (List Char)
  | acc, [] => acc.reverse
  | acc, seg :: rest =>
    if seg = ['.', '.'] then resolveSegments (acc.drop 1) rest
    else if seg = ['.'] then resolveSegments acc rest
    else resolveSegments (seg :: acc) rest

/-- The relative-path merge of CPython `urljoin` (its tail after the early
returns): base path segments without the last one, the candidate's segments,
empty-inner-segment filtering, `.`/`..` resolution, and the final
`'/'.join(...) or '/'`. -/
def joinPath (bpath upath : List Char) : List Char :=
  let base_parts0 := splitAll '/' bpath
  let base_parts :=
    match base_parts0.getLast? with
    | some l => if l ≠ [] then base_parts0.dropLast else base_parts0
    | none => base_parts0
  let segments :=
    if upath.take 1 = ['/'] then splitAll '/' upath
    else filterMiddle (base_parts ++ splitAll '/' upath)
  let resolved := resolveSegments [] segments
  let resolved2 :=
    match segments.getLast? with
    | some s => if s = ['.'] ∨ s = ['.', '.'] then resolved ++ [[]] else resolved
    | none => resolved
  let joined := List.intercalate ['/'] resolved2
  if joined = [] then ['/'] else joined

/-- CPython `urljoin(base, url)` over `List Char`. -/
def urljoin (base url : List Char) : List Char :=
  if base = [] then url
  else if url = [] then base
  else
    let b := urlparse base []
    let u := urlparse url b.scheme
    if u.scheme ≠ b.scheme ∨ u.scheme ∉ uses_relative then url
    else if u.scheme ∈ uses_netloc ∧ u.netloc ≠ [] then
      urlunparse ⟨u.scheme, u.netloc, u.path, u.params, u.query, u.fragment⟩
    else
      let netloc := if u.scheme ∈ uses_netloc then b.netloc else u.netloc
      if u.path = [] ∧ u.params = [] then
        urlunparse ⟨u.scheme, netloc, b.path, b.params,
                    (if u.query = [] then b.query else u.query), u.fragment⟩
      else
        urlunparse ⟨u.scheme, netloc, joinPath b.path u.path, u.params,
                    u.query, u.fragment⟩

/-- miles.py `resolve_url(base, url)`: `urljoin(base, url)`. -/
def resolve_url (base url : String) : String :=
  (urljoin base.data url.data).asString

/-! ## os.path helpers used by `download_url` -/

/-- Python `os.path.basename` (posix): everything after the last `/`. -/
def os_path_basename (p : String) : String :=
  match splitLast '/' p.data with
  | some (_, post) => post.asString
  | none => p

/-- Python `os.path.join(a, b)` (posix, two arguments). -/
def os_path_join (a b : String) : String :=
  match b.data with
  | '/' :: _ => b
  | _ =>
    if a = "" ∨ a.data.getLast? = some '/' then a ++ b
    else a ++ "/" ++ b

/-- The local path `download_url` writes to: `os.path.join(destination,
os.path.basename(url))`. -/
def dlPath (destination url : String) : String :=
  os_path_join destination (os_path_basename url)

/-! ## miles.py constants and extraction -/

/-- miles.py `FILE_REGEX`: the category-to-pattern table, as an association
list in source order (the second `mp3` pattern really lacks the leading `<`
in the source). -/
def FILE_REGEX : List (String × List String) :=
  [("jpg", ["<img.*src=\"?([^\\\" ]+.jpg)", "<a.*href=\"?([^\\\" ]+.jpg)"]),
   ("mp3", ["<audio.*src=\"?([^\\\" ]+.mp3)", "a.*href=\"?([^\\\" ]+.mp3)"]),
   ("pdf", ["<a.*href=\"?([^\\\" ]+.pdf)"]),
   ("png", ["<img.*src=\"?([^\\\" ]+.png)", "<a.*href=\"?([^\\\" ]+.png)"])]

/-- The dictionary lookup `FILE_REGEX[filetype]`: `none` models the
`KeyError` case of an unknown key. -/
def lookupRegex (ft : String) : Option (List String) :=
  (FILE_REGEX.find? (fun e => e.1 == ft)).map (fun e => e.2)

/-- Errors with which the crawl can terminate: `exit(5)` on a falsy base
page response, `KeyError` from `FILE_REGEX[filetype]`, an uncaught
`OSError` from `open(local_path, 'wb')`, and `ZeroDivisionError` from the
bandwidth computation. -/
inductive CrawlError where
  | pageFetchFailed
  | keyError
  | osError
  | zeroDivisionError
deriving DecidableEq

/-- The loop nest of `extract_urls` over the requested file types, with the
page text already fetched.  `findall` is the `re.findall` collaborator:
regex source and text to the list of matches in textual order.  An unknown
file type raises `KeyError` when the generator reaches it. -/
def extractTypes (findall : String → String → List String)
    (pageURL text : String) : List String → Except CrawlError (List String)
  | [] => .ok []
  | ft :: rest =>
    match lookupRegex ft with
    | none => .error .keyError
    | some rgxs =>
      match extractTypes findall pageURL text rest with
      | .error e => .error e
      | .ok tail =>
        .ok ((rgxs.flatMap (fun r => (findall r text).map (resolve_url pageURL))) ++ tail)

/-- miles.py `extract_urls(url, file_types)`.  The base-page response of
`requests.get(url)` is the collaborator value `pageResp`: `none` models a
falsy response (non-success status), on which the code calls `exit(5)`
before yielding anything. -/
def extract_urls (findall : String → String → List String)
    (pageResp : Option String) (url : String) (file_types : List String) :
    Except CrawlError (List String) :=
  match pageResp with
  | none => .error .pageFetchFailed
  | some text => extractTypes findall url text file_types

/-! ## The file system and `download_url` -/

/-- Explicit file-system state: `files` maps each existing path to its byte
content (one entry per path), and `badPaths` is the set of paths on which
`open(path, 'wb')` raises `OSError`. -/
structure Fs where
  files : List (String × List Nat)
  badPaths : List String
deriving DecidableEq

/-- Look up the content of a path. -/
def lookupFs (files : List (String × List Nat)) (p : String) : Option (List Nat) :=
  (files.find? (fun e => e.1 == p)).map (fun e => e.2)

/-- Number of directory entries with the given name. -/
def countKey (files : List (String × List Nat)) (p : String) : Nat :=
  (files.filter (fun e => e.1 == p)).length

/-- Writing with `open(path, 'wb')`: truncate-and-overwrite if the path
exists, create it otherwise. -/
def writeEntry : List (String × List Nat) → String → List Nat → List (String × List Nat)
  | [], p, c => [(p, c)]
  | (q, d) :: rest, p, c =>
    if q = p then (p, c) :: rest else (q, d) :: writeEntry rest p c

/-- `writeEntry` lifted to the file-system state. -/
def writeFile (fs : Fs) (p : String) (c : List Nat) : Fs :=
  ⟨writeEntry fs.files p c, fs.badPaths⟩

/-- Apply a batch of writes in the given order (used to speak about
completion orders of the worker pool). -/
def applyWrites (fs : Fs) (ws : List (String × List Nat)) : Fs :=
  ws.foldl (fun f e => writeFile f e.1 e.2) fs

/-- Size reported by `os.stat(path).st_size` (the crawl only stats paths it
has just written). -/
def statSize (fs : Fs) (p : String) : Nat :=
  ((lookupFs fs.files p).getD []).length

/-- miles.py `download_url(url, destination)`.  The per-URL transport is the
collaborator `net`: `.error ()` models a `requests.exceptions.RequestException`
(transport failure or, via `raise_for_status`, a non-success status), which
the code catches and turns into `return None`.  A write to a bad path
models `open` raising `OSError`, which the code does not catch: the
exception propagates as `.error ()` of the whole call. -/
def download_url (net : String → Except Unit (List Nat)) (fs : Fs)
    (url destination : String) : Except Unit (Option String × Fs) :=
  match net url with
  | .error _ => .ok (none, fs)
  | .ok content =>
    let local_path := os_path_join destination (os_path_basename url)
    if local_path ∈ fs.badPaths then .error ()
    else .ok (some local_path, writeFile fs local_path content)

/-! ## The crawl scheduler / aggregator -/

/-- Did the fetch of `u` succeed? -/
def netOk (net : String → Except Unit (List Nat)) (u : String) : Bool :=
  match net u with
  | .ok _ => true
  | .error _ => false

/-- Content a successful fetch of `u` returns (junk on failure). -/
def netContent (net : String → Except Unit (List Nat)) (u : String) : List Nat :=
  match net u with
  | .ok c => c
  | .error _ => []

/-- Byte count of a successful fetch of `u` (`0` on failure). -/
def netBytes (net : String → Except Unit (List Nat)) (u : String) : Nat :=
  (netContent net u).length

/-- `executor.map(download_url, urls, itertools.repeat(destination))`,
collected in dispatch order (the order `Executor.map` returns results in),
threading the shared file system.  An uncaught worker exception re-raises
at collection, aborting the batch. -/
def crawl_collect (net : String → Except Unit (List Nat)) (fs : Fs)
    (destination : String) : List String → Except Unit (List (Option String) × Fs)
  | [] => .ok ([], fs)
  | u :: rest =>
    match download_url net fs u destination with
    | .error e => .error e
    | .ok (o, fs') =>
      match crawl_collect net fs' destination rest with
      | .error e => .error e
      | .ok (os, fs'') => .ok (o :: os, fs'')

/-- The report the crawl prints: file count, total bytes statted, the
megabyte total `sum(...)/(1024*1024)`, elapsed seconds, and
`bandwidth = Mbytes_downloaded/time_total`.  Python floats are modelled as
exact rationals. -/
structure CrawlReport where
  filesDownloaded : Nat
  totalBytes : Nat
  MbytesDownloaded : ℚ
  elapsed : ℚ
  bandwidth : ℚ
deriving DecidableEq

/-- miles.py `crawl(url, file_types, destination, cpus)`.  Wall-clock time
is external: `elapsed` is the value of `end - start`.  A falsy base-page
response aborts with `exit(5)` before any download is dispatched; an
unknown file type raises `KeyError`; an uncaught worker `OSError` aborts
the batch; `elapsed = 0` makes `Mbytes_downloaded/time_total` raise
`ZeroDivisionError` before anything is reported. -/
def crawl (findall : String → String → List String)
    (net : String → Except Unit (List Nat)) (pageResp : Option String)
    (elapsed : ℚ) (url : String) (file_types : List String)
    (destination : String) (fs : Fs) : Except CrawlError (CrawlReport × Fs) :=
  match extract_urls findall pageResp url file_types with
  | .error e => .error e
  | .ok urls =>
    match crawl_collect net fs destination urls with
    | .error _ => .error .osError
    | .ok (outs, fs') =>
      let files := outs.filterMap id
      let bytes := (files.map (statSize fs')).sum
      let mb : ℚ := (bytes : ℚ) / (1024 * 1024)
      if elapsed = 0 then .error .zeroDivisionError
      else .ok (⟨files.length, bytes, mb, elapsed, mb / elapsed⟩, fs')

/-! ## Helper lemmas: the file-system model -/

theorem lookupFs_writeEntry_self (files : List (String × List Nat)) (p : String)
    (c : List Nat) : lookupFs (writeEntry files p c) p = some c := by
  induction files with
  | nil => simp [writeEntry, lookupFs]
  | cons e rest ih =>
    obtain ⟨q, d⟩ := e
    by_cases h : q = p
    · simp [writeEntry, h, lookupFs]
    · simpa [writeEntry, h, lookupFs] using ih

theorem lookupFs_writeEntry_other (files : List (String × List Nat)) (p q : String)
    (c : List Nat) (h : q ≠ p) :
    lookupFs (writeEntry files p c) q = lookupFs files q := by
  induction files with
  | nil => simp [writeEntry, lookupFs, Ne.symm h]
  | cons e rest ih =>
    obtain ⟨a, d⟩ := e
    by_cases ha : a = p
    · subst ha
      simp [writeEntry, lookupFs, Ne.symm h]
    · by_cases hq : a = q
      · subst hq
        simp [writeEntry, ha, lookupFs, h]
      · simpa [writeEntry, ha, lookupFs, hq] using ih

theorem applyWrites_badPaths (ws : List (String × List Nat)) :
    ∀ fs : Fs, (applyWrites fs ws).badPaths = fs.badPaths := by
  induction ws with
  | nil => intro fs; rfl
  | cons w rest ih => intro fs; simpa [applyWrites] using ih (writeFile fs w.1 w.2)

theorem lookupFs_applyWrites_not_mem (ws : List (String × List Nat)) :
    ∀ (fs : Fs) (p : String), p ∉ ws.map Prod.fst →
      lookupFs (applyWrites fs ws).files p = lookupFs fs.files p := by
  induction ws with
  | nil => intro fs p _; rfl
  | cons w rest ih =>
    intro fs p hp
    simp only [List.map_cons, List.mem_cons] at hp
    push_neg at hp
    have step : applyWrites fs (w :: rest) = applyWrites (writeFile fs w.1 w.2) rest := rfl
    rw [step, ih (writeFile fs w.1 w.2) p hp.2]
    exact lookupFs_writeEntry_other fs.files w.1 p w.2 hp.1

theorem lookupFs_applyWrites_mem (ws : List (String × List Nat)) :
    ∀ (fs : Fs) (p : String) (c : List Nat), (p, c) ∈ ws →
      (ws.map Prod.fst).Nodup →
      lookupFs (applyWrites fs ws).files p = some c := by
  induction ws with
  | nil => intro fs p c hmem; exact absurd hmem (List.not_mem_nil _)
  | cons w rest ih =>
    intro fs p c hmem hnd
    simp only [List.map_cons, List.nodup_cons] at hnd
    have step : applyWrites fs (w :: rest) = applyWrites (writeFile fs w.1 w.2) rest := rfl
    rcases List.mem_cons.mp hmem with heq | hrest
    · subst heq
      have hnot : p ∉ rest.map Prod.fst := by simpa using hnd.1
      rw [step, lookupFs_applyWrites_not_mem rest _ p hnot]
      exact lookupFs_writeEntry_self fs.files p c
    · exact step ▸ ih (writeFile fs w.1 w.2) p c hrest hnd.2

/-! ## Helper lemmas: the collection loop -/

theorem crawl_collect_spec (net : String → Except Unit (List Nat))
    (destination : String) :
    ∀ (urls : List String) (fs : Fs),
      (∀ u ∈ urls, netOk net u = true → dlPath destination u ∉ fs.badPaths) →
      crawl_collect net fs destination urls =
        .ok (urls.map (fun u => if netOk net u then some (dlPath destination u) else none),
             applyWrites fs ((urls.filter (netOk net)).map
               (fun u => (dlPath destination u, netContent net u)))) := by
  intro urls
  induction urls with
  | nil => intro fs _; rfl
  | cons u rest ih =>
    intro fs h
    have hu := h u (List.mem_cons_self u rest)
    cases hnet : net u with
    | error e =>
      have hok : netOk net u = false := by simp [netOk, hnet]
      have hdl : download_url net fs u destination = .ok (none, fs) := by
        simp [download_url, hnet]
      simp only [crawl_collect, hdl]
      rw [ih fs (fun v hv => h v (List.mem_cons_of_mem u hv))]
      simp [hok]
    | ok content =>
      have hok : netOk net u = true := by simp [netOk, hnet]
      have hnb : dlPath destination u ∉ fs.badPaths := hu hok
      have hnb' : os_path_join destination (os_path_basename u) ∉ fs.badPaths := hnb
      have hdl : download_url net fs u destination =
          .ok (some (dlPath destination u), writeFile fs (dlPath destination u) content) := by
        simp [download_url, hnet, dlPath, hnb']
      simp only [crawl_collect, hdl]
      have hbad' : ∀ v ∈ rest, netOk net v = true →
          dlPath destination v ∉ (writeFile fs (dlPath destination u) content).badPaths :=
        fun v hv hvok => h v (List.mem_cons_of_mem u hv) hvok
      rw [ih (writeFile fs (dlPath destination u) content) hbad']
      have hc : netContent net u = content := by simp [netContent, hnet]
      simp [hok, hc, applyWrites]

theorem filterMap_outcomes (net : String → Except Unit (List Nat))
    (destination : String) (urls : List String) :
    (urls.map (fun u => if netOk net u then some (dlPath destination u) else none)).filterMap id =
      (urls.filter (netOk net)).map (dlPath destination) := by
  induction urls with
  | nil => rfl
  | cons u rest ih => by_cases h : netOk net u <;> simp [h, ih]

theorem stat_sum_of_perm (fs : Fs) (net : String → Except Unit (List Nat))
    (destination : String) (succs : List String)
    (hnd : (succs.map (dlPath destination)).Nodup)
    (ws : List (String × List Nat))
    (hperm : ws.Perm (succs.map (fun u => (dlPath destination u, netContent net u)))) :
    ((succs.map (dlPath destination)).map (statSize (applyWrites fs ws))).sum =
      (succs.map (netBytes net)).sum := by
  have hkeys : ws.map Prod.fst = ws.map Prod.fst := rfl
  have hpermfst : (ws.map Prod.fst).Perm (succs.map (dlPath destination)) := by
    have := hperm.map Prod.fst
    simpa [Function.comp] using this
  have hndws : (ws.map Prod.fst).Nodup := hpermfst.nodup_iff.mpr hnd
  have hpoint : ∀ u ∈ succs,
      statSize (applyWrites fs ws) (dlPath destination u) = netBytes net u := by
    intro u hu
    have hmem : (dlPath destination u, netContent net u) ∈ ws := by
      refine hperm.mem_iff.mpr ?_
      exact List.mem_map_of_mem _ hu
    have := lookupFs_applyWrites_mem ws fs (dlPath destination u) (netContent net u) hmem hndws
    simp [statSize, this, netBytes]
  rw [List.map_map]
  have hmaps : succs.map (statSize (applyWrites fs ws) ∘ dlPath destination) =
      succs.map (netBytes net) :=
    List.map_congr_left (fun u hu => by simpa [Function.comp] using hpoint u hu)
  rw [hmaps]

/-! ## Concrete fixtures for closed instances -/

/-- Extractor matches: two links with distinct file names. -/
def findallTwo : String → String → List String :=
  fun _ _ => ["http://a/a.jpg", "http://b/b.jpg"]

/-- Transport for `findallTwo`: `a.jpg` is one byte, everything else two. -/
def netTwo : String → Except Unit (List Nat) :=
  fun u => if u = "http://a/a.jpg" then .ok [0] else .ok [0, 0]

/-- Extractor matches: two distinct URLs sharing the file name `x.jpg`. -/
def findallCollide : String → String → List String :=
  fun _ _ => ["http://a/x.jpg", "http://b/x.jpg"]

/-- Transport for `findallCollide`: one byte from host `a`, two from `b`. -/
def netCollide : String → Except Unit (List Nat) :=
  fun u => if u = "http://a/x.jpg" then .ok [0] else .ok [0, 0]

/-- Extractor matches: the single link `http://h/a.jpg`. -/
def findallOne : String → String → List String :=
  fun _ _ => ["http://h/a.jpg"]

/-- Extractor matches: none at all. -/
def findallNil : String → String → List String := fun _ _ => []

/-- Transport that always succeeds with one 7-byte. -/
def netConst7 : String → Except Unit (List Nat) := fun _ => .ok [7]

/-- Transport that always fails. -/
def netFail : String → Except Unit (List Nat) := fun _ => .error ()

/-- A file system on which writing `./a.jpg` raises `OSError`. -/
def fsBadA : Fs := ⟨[], ["./a.jpg"]⟩

/-! ## C1 -/

/-- C1 counterexample: a crawl over two discovered links that both succeed
(`K = 2`, byte counts `1` and `2`, so the successful byte sum is `3`) but
share the derived file name `x.jpg`.  The second download overwrites the
first, and since the code sums `os.stat(file).st_size` over the final files
after the pool finishes, the surviving 2-byte file is counted twice:
`crawl` reports `totalBytes = 4 ≠ 3`.  The claim that `totalBytes` always
equals the sum of the byte counts of the successful downloads is false. -/
theorem crawl_name_collision_counterexample :
    extract_urls findallCollide (some "page") "http://p/" ["pdf"] =
      .ok ["http://a/x.jpg", "http://b/x.jpg"] ∧
    netOk netCollide "http://a/x.jpg" = true ∧
    netOk netCollide "http://b/x.jpg" = true ∧
    netBytes netCollide "http://a/x.jpg" + netBytes netCollide "http://b/x.jpg" = 3 ∧
    (crawl findallCollide netCollide (some "page") 1 "http://p/" ["pdf"] "." ⟨[], []⟩).toOption.map
      (fun pr => (pr.1.filesDownloaded, pr.1.totalBytes)) = some (2, 4) ∧
    (4 : Nat) ≠ 3 := by
  exact ⟨by decide, by decide, by decide, by decide, by decide, by decide⟩

/-- C1 (amended): for a crawl over discovered links `urls` in which the
downloads with `netOk` succeed, provided no local write fails and the
derived local file names of the successful downloads are pairwise distinct,
`crawl` reports `filesDownloaded = K` (the number of successes) and
`totalBytes` equal to the sum of the successful byte counts, and the byte
total is independent of the completion order (any permutation `ws` of the
successful writes yields the same statted sum).  When two successful URLs
share a file name, the overwritten file is statted once per success
instead. -/
theorem crawl_tallies_amended
    (findall : String → String → List String) (net : String → Except Unit (List Nat))
    (text url destination : String) (file_types : List String) (fs : Fs)
    (elapsed : ℚ) (urls : List String)
    (hext : extract_urls findall (some text) url file_types = .ok urls)
    (helapsed : elapsed ≠ 0)
    (hbad : ∀ u ∈ urls, netOk net u = true → dlPath destination u ∉ fs.badPaths)
    (hnd : ((urls.filter (netOk net)).map (dlPath destination)).Nodup) :
    ∃ r fs',
      crawl findall net (some text) elapsed url file_types destination fs = .ok (r, fs') ∧
      r.filesDownloaded = (urls.filter (netOk net)).length ∧
      r.totalBytes = ((urls.filter (netOk net)).map (netBytes net)).sum ∧
      ∀ ws, ws.Perm ((urls.filter (netOk net)).map
          (fun u => (dlPath destination u, netContent net u))) →
        (((urls.filter (netOk net)).map (dlPath destination)).map
            (statSize (applyWrites fs ws))).sum =
          ((urls.filter (netOk net)).map (netBytes net)).sum := by
  have hcol := crawl_collect_spec net destination urls fs hbad
  unfold crawl
  simp only [hext, hcol, filterMap_outcomes net destination urls, if_neg helapsed]
  refine ⟨_, _, rfl, by simp, ?_, ?_⟩
  · exact stat_sum_of_perm fs net destination (urls.filter (netOk net)) hnd _ (List.Perm.refl _)
  · intro ws hws
    exact stat_sum_of_perm fs net destination (urls.filter (netOk net)) hnd ws hws

/-- C1 witness: the amended theorem applied to a concrete crawl over two
distinct-named links of 1 and 2 bytes. -/
theorem crawl_tallies_amended_witness :
    extract_urls findallTwo (some "page") "http://p/" ["pdf"] =
      .ok ["http://a/a.jpg", "http://b/b.jpg"] ∧
    (1 : ℚ) ≠ 0 ∧
    (∀ u ∈ ["http://a/a.jpg", "http://b/b.jpg"], netOk netTwo u = true →
      dlPath "." u ∉ (Fs.mk [] []).badPaths) ∧
    ((["http://a/a.jpg", "http://b/b.jpg"].filter (netOk netTwo)).map (dlPath ".")).Nodup ∧
    (∃ r fs',
      crawl findallTwo netTwo (some "page") 1 "http://p/" ["pdf"] "." ⟨[], []⟩ =
        .ok (r, fs') ∧
      r.filesDownloaded = (["http://a/a.jpg", "http://b/b.jpg"].filter (netOk netTwo)).length ∧
      r.totalBytes =
        ((["http://a/a.jpg", "http://b/b.jpg"].filter (netOk netTwo)).map (netBytes netTwo)).sum ∧
      ∀ ws, ws.Perm ((["http://a/a.jpg", "http://b/b.jpg"].filter (netOk netTwo)).map
          (fun u => (dlPath "." u, netContent netTwo u))) →
        (((["http://a/a.jpg", "http://b/b.jpg"].filter (netOk netTwo)).map (dlPath ".")).map
            (statSize (applyWrites ⟨[], []⟩ ws))).sum =
          ((["http://a/a.jpg", "http://b/b.jpg"].filter (netOk netTwo)).map (netBytes netTwo)).sum) :=
  ⟨by decide, by norm_num,
   by decide, by decide,
   crawl_tallies_amended findallTwo netTwo "page" "http://p/" "." ["pdf"] ⟨[], []⟩ 1
     ["http://a/a.jpg", "http://b/b.jpg"] (by decide) (by norm_num) (by decide) (by decide)⟩

/-! ## C2 -/

/-- C2 counterexample: one link is dispatched and its fetch succeeds, but
the local write raises `OSError`; the worker produces an exception instead
of a success-or-failure `DownloadOutcome`, and collection of outcomes
aborts, so the dispatched download yields no outcome at all. -/
theorem crawl_collect_write_failure_counterexample :
    netOk netConst7 "http://h/a.jpg" = true ∧
    crawl_collect netConst7 fsBadA "." ["http://h/a.jpg"] = .error () := by
  exact ⟨by decide, by decide⟩

/-- C2 (amended): provided no local write fails, the number of dispatched
downloads equals the number of links the extractor yielded, and each
dispatched download produces exactly one outcome (`some path` on success,
`none` on failure), in dispatch order, with none lost or duplicated; a
local write failure instead raises and aborts outcome collection. -/
theorem crawl_collect_outcomes_amended
    (findall : String → String → List String) (net : String → Except Unit (List Nat))
    (text url destination : String) (file_types : List String) (fs : Fs)
    (urls : List String)
    (hext : extract_urls findall (some text) url file_types = .ok urls)
    (hbad : ∀ u ∈ urls, netOk net u = true → dlPath destination u ∉ fs.badPaths) :
    ∃ outs fs',
      crawl_collect net fs destination urls = .ok (outs, fs') ∧
      outs.length = urls.length ∧
      outs = urls.map (fun u => if netOk net u then some (dlPath destination u) else none) :=
  ⟨_, _, crawl_collect_spec net destination urls fs hbad, by simp, rfl⟩

/-- C2 witness: the amended theorem at a concrete two-link crawl. -/
theorem crawl_collect_outcomes_amended_witness :
    extract_urls findallTwo (some "page") "http://p/" ["pdf"] =
      .ok ["http://a/a.jpg", "http://b/b.jpg"] ∧
    (∀ u ∈ ["http://a/a.jpg", "http://b/b.jpg"], netOk netTwo u = true →
      dlPath "." u ∉ (Fs.mk [] []).badPaths) ∧
    (∃ outs fs',
      crawl_collect netTwo ⟨[], []⟩ "." ["http://a/a.jpg", "http://b/b.jpg"] = .ok (outs, fs') ∧
      outs.length = (["http://a/a.jpg", "http://b/b.jpg"] : List String).length ∧
      outs = ["http://a/a.jpg", "http://b/b.jpg"].map
        (fun u => if netOk netTwo u then some (dlPath "." u) else none)) :=
  ⟨by decide, by decide,
   crawl_collect_outcomes_amended findallTwo netTwo "page" "http://p/" "." ["pdf"] ⟨[], []⟩
     ["http://a/a.jpg", "http://b/b.jpg"] (by decide) (by decide)⟩

/-! ## C5 -/

/-- C5 counterexample: a successful fetch whose local write fails.
`download_url` does not return a failure outcome: the uncaught `OSError`
propagates (`.error ()`), and the whole crawl aborts with it, so a single
failing download does abort the batch when the failure is a write
failure. -/
theorem download_url_write_failure_counterexample :
    download_url netConst7 fsBadA "http://h/a.jpg" "." = .error () ∧
    crawl findallOne netConst7 (some "page") 1 "http://p/" ["pdf"] "." fsBadA =
      .error .osError := by
  exact ⟨by decide, by decide⟩

/-- C5 (amended): on a transport failure or non-success HTTP status (a
caught `RequestException`), `download_url` returns the failure outcome
`None` without touching the file system and without raising, and a batch
over any link list completes with an outcome per link as long as no local
write fails; a local write failure, by contrast, raises an uncaught
`OSError`. -/
theorem download_url_failure_outcome_amended
    (net : String → Except Unit (List Nat)) (fs : Fs) (url destination : String)
    (hfail : net url = .error ()) :
    download_url net fs url destination = .ok (none, fs) ∧
    ∀ urls : List String,
      (∀ u ∈ urls, netOk net u = true → dlPath destination u ∉ fs.badPaths) →
      ∃ outs fs', crawl_collect net fs destination urls = .ok (outs, fs') := by
  constructor
  · simp [download_url, hfail]
  · intro urls hb
    exact ⟨_, _, crawl_collect_spec net destination urls fs hb⟩

/-- C5 witness: the amended theorem at a concrete always-failing
transport. -/
theorem download_url_failure_outcome_amended_witness :
    netFail "http://h/a.jpg" = .error () ∧
    (download_url netFail ⟨[], []⟩ "http://h/a.jpg" "." = .ok (none, ⟨[], []⟩) ∧
     ∀ urls : List String,
       (∀ u ∈ urls, netOk netFail u = true → dlPath "." u ∉ (Fs.mk [] []).badPaths) →
       ∃ outs fs', crawl_collect netFail ⟨[], []⟩ "." urls = .ok (outs, fs')) :=
  ⟨rfl, download_url_failure_outcome_amended netFail ⟨[], []⟩ "http://h/a.jpg" "." rfl⟩

/-! ## C9 -/

theorem countKey_writeEntry (files : List (String × List Nat)) (p : String)
    (c : List Nat) (h : countKey files p ≤ 1) :
    countKey (writeEntry files p c) p = 1 := by
  induction files with
  | nil => simp [writeEntry, countKey]
  | cons e rest ih =>
    obtain ⟨q, d⟩ := e
    by_cases hq : q = p
    · subst hq
      have hw : writeEntry ((q, d) :: rest) q c = (q, c) :: rest := by
        simp [writeEntry]
      have hcons : ∀ x : List Nat, countKey ((q, x) :: rest) q = countKey rest q + 1 := by
        intro x; simp [countKey, List.filter_cons]
      rw [hcons d] at h
      rw [hw, hcons c]
      omega
    · have hw : writeEntry ((q, d) :: rest) p c = (q, d) :: writeEntry rest p c := by
        simp [writeEntry, hq]
      have hskip : ∀ l, countKey ((q, d) :: l) p = countKey l p := by
        intro l; simp [countKey, List.filter_cons, hq]
      rw [hskip rest] at h
      rw [hw, hskip (writeEntry rest p c)]
      exact ih h

/-- C9: downloading the same URL twice into the same destination derives
the same local name both times and the second write truncates-and-
overwrites the first: afterwards exactly one file of that name exists and
it holds the bytes of the second download. -/
theorem download_url_overwrite
    (net1 net2 : String → Except Unit (List Nat)) (fs : Fs) (url destination : String)
    (c1 c2 : List Nat)
    (h1 : net1 url = .ok c1) (h2 : net2 url = .ok c2)
    (hbad : dlPath destination url ∉ fs.badPaths)
    (hcount : countKey fs.files (dlPath destination url) ≤ 1) :
    ∃ fs1 fs2,
      download_url net1 fs url destination = .ok (some (dlPath destination url), fs1) ∧
      download_url net2 fs1 url destination = .ok (some (dlPath destination url), fs2) ∧
      countKey fs2.files (dlPath destination url) = 1 ∧
      lookupFs fs2.files (dlPath destination url) = some c2 := by
  have hbad' : os_path_join destination (os_path_basename url) ∉ fs.badPaths := hbad
  refine ⟨writeFile fs (dlPath destination url) c1,
          writeFile (writeFile fs (dlPath destination url) c1) (dlPath destination url) c2,
          ?_, ?_, ?_, ?_⟩
  · simp [download_url, h1, dlPath, hbad']
  · simp [download_url, h2, dlPath, writeFile, hbad']
  · have s1 : countKey (writeFile fs (dlPath destination url) c1).files
        (dlPath destination url) = 1 := countKey_writeEntry _ _ _ hcount
    exact countKey_writeEntry _ _ _ (by rw [s1])
  · exact lookupFs_writeEntry_self _ _ _

/-! ## C10 -/

/-- C10: for a category identifier outside the four keys of `FILE_REGEX`,
the unguarded dictionary lookup `FILE_REGEX[filetype]` finds nothing
(`KeyError`), and when the extraction loop reaches such a category the
whole extraction raises the lookup error instead of yielding an empty
match set or a failure value. -/
theorem extract_urls_key_error
    (findall : String → String → List String) (text url : String)
    (file_types : List String) (ft : String)
    (hmem : ft ∈ file_types)
    (hunk : ft ∉ ["jpg", "mp3", "pdf", "png"]) :
    lookupRegex ft = none ∧
    extract_urls findall (some text) url file_types = .error .keyError := by
  have h1 : ft ≠ "jpg" := fun h => hunk (by simp [h])
  have h2 : ft ≠ "mp3" := fun h => hunk (by simp [h])
  have h3 : ft ≠ "pdf" := fun h => hunk (by simp [h])
  have h4 : ft ≠ "png" := fun h => hunk (by simp [h])
  have b1 : (("jpg" : String) == ft) = false := beq_eq_false_iff_ne.mpr (Ne.symm h1)
  have b2 : (("mp3" : String) == ft) = false := beq_eq_false_iff_ne.mpr (Ne.symm h2)
  have b3 : (("pdf" : String) == ft) = false := beq_eq_false_iff_ne.mpr (Ne.symm h3)
  have b4 : (("png" : String) == ft) = false := beq_eq_false_iff_ne.mpr (Ne.symm h4)
  have hlook : lookupRegex ft = none := by
    simp [lookupRegex, FILE_REGEX, List.find?, b1, b2, b3, b4]
  refine ⟨hlook, ?_⟩
  show extractTypes findall url text file_types = .error .keyError
  induction file_types with
  | nil => cases hmem
  | cons a rest ih =>
    rcases List.mem_cons.mp hmem with rfl | hr
    · simp [extractTypes, hlook]
    · cases hla : lookupRegex a with
      | none => simp [extractTypes, hla]
      | some rgxs => simp [extractTypes, hla, ih hr]

/-- C10 witness: the lookup-error theorem at the unknown category `gif`. -/
theorem extract_urls_key_error_witness :
    ("gif" : String) ∈ ["jpg", "gif"] ∧
    ("gif" : String) ∉ ["jpg", "mp3", "pdf", "png"] ∧
    (lookupRegex "gif" = none ∧
     extract_urls findallNil (some "text") "http://h/" ["jpg", "gif"] = .error .keyError) :=
  ⟨by decide, by decide,
   extract_urls_key_error findallNil "text" "http://h/" ["jpg", "gif"] "gif"
     (by decide) (by decide)⟩

/-! ## C4 -/

/-- C4: for a fixed page text, extraction yields exactly the concatenation,
in category order, of the concatenation, in pattern order, of the matches
of each pattern in textual order, each resolved against the page URL —
with no deduplication (repeated matches appear once per occurrence in this
concatenation).  Determinism is immediate: the embedding is a pure
function of the page text and category list. -/
theorem extract_urls_deterministic_order
    (findall : String → String → List String) (text url : String)
    (file_types : List String)
    (hknown : ∀ ft ∈ file_types, ft ∈ ["jpg", "mp3", "pdf", "png"]) :
    extract_urls findall (some text) url file_types =
      .ok (file_types.flatMap (fun ft =>
        ((lookupRegex ft).getD []).flatMap (fun rgx =>
          (findall rgx text).map (resolve_url url)))) := by
  show extractTypes findall url text file_types = _
  induction file_types with
  | nil => rfl
  | cons ft rest ih =>
    have hft := hknown ft (List.mem_cons_self ft rest)
    have hrest := fun v hv => hknown v (List.mem_cons_of_mem ft hv)
    have hsome : (lookupRegex ft).isSome := by
      fin_cases hft <;> decide
    rw [Option.isSome_iff_exists] at hsome
    obtain ⟨rgxs, hr⟩ := hsome
    have ihe : extractTypes findall url text rest = _ := ih hrest
    simp [extractTypes, hr, ihe]

/-- C4 witness: the ordering theorem at a page whose matcher returns the
same URL for every pattern, making the absence of deduplication
visible. -/
theorem extract_urls_deterministic_order_witness :
    (∀ ft ∈ ["jpg", "pdf"], ft ∈ (["jpg", "mp3", "pdf", "png"] : List String)) ∧
    extract_urls findallOne (some "text") "http://p/" ["jpg", "pdf"] =
      .ok (["jpg", "pdf"].flatMap (fun ft =>
        ((lookupRegex ft).getD []).flatMap (fun rgx =>
          (findallOne rgx "text").map (resolve_url "http://p/")))) :=
  ⟨by decide,
   extract_urls_deterministic_order findallOne "text" "http://p/" ["jpg", "pdf"] (by decide)⟩

/-! ## C6 -/

/-- C6: when the base-page fetch returns a falsy response, `crawl`
terminates with the page-fetch-failure condition (`exit(5)`) before any
download is dispatched — the outcome does not depend on the download
transport at all and the file system is untouched — and this condition is
distinguishable from the non-error report a successful fetch with zero
matching links produces. -/
theorem crawl_page_fetch_failed
    (findall : String → String → List String)
    (net net' : String → Except Unit (List Nat))
    (pageText : String) (elapsed : ℚ) (url : String) (file_types : List String)
    (destination : String) (fs : Fs)
    (helapsed : elapsed ≠ 0)
    (hzero : extract_urls findall (some pageText) url file_types = .ok []) :
    crawl findall net none elapsed url file_types destination fs =
      .error .pageFetchFailed ∧
    crawl findall net' none elapsed url file_types destination fs =
      .error .pageFetchFailed ∧
    crawl findall net (some pageText) elapsed url file_types destination fs =
      .ok (⟨0, 0, 0, elapsed, 0⟩, fs) ∧
    (Except.error .pageFetchFailed : Except CrawlError (CrawlReport × Fs)) ≠
      .ok (⟨0, 0, 0, elapsed, 0⟩, fs) := by
  refine ⟨rfl, rfl, ?_, by simp⟩
  unfold crawl
  simp [hzero, crawl_collect, if_neg helapsed]

/-- C6 witness: the page-fetch-failure theorem at a concrete crawl with no
matching links. -/
theorem crawl_page_fetch_failed_witness :
    (1 : ℚ) ≠ 0 ∧
    extract_urls findallNil (some "text") "http://h/" ["jpg"] = .ok [] ∧
    (crawl findallNil netConst7 none 1 "http://h/" ["jpg"] "." ⟨[], []⟩ =
       .error .pageFetchFailed ∧
     crawl findallNil netFail none 1 "http://h/" ["jpg"] "." ⟨[], []⟩ =
       .error .pageFetchFailed ∧
     crawl findallNil netConst7 (some "text") 1 "http://h/" ["jpg"] "." ⟨[], []⟩ =
       .ok (⟨0, 0, 0, 1, 0⟩, ⟨[], []⟩) ∧
     (Except.error .pageFetchFailed : Except CrawlError (CrawlReport × Fs)) ≠
       .ok (⟨0, 0, 0, 1, 0⟩, ⟨[], []⟩)) :=
  ⟨by norm_num, by decide,
   crawl_page_fetch_failed findallNil netConst7 netFail "text" 1 "http://h/" ["jpg"] "."
     ⟨[], []⟩ (by norm_num) (by decide)⟩

/-! ## C7 -/

/-- C7 counterexample: a crawl whose elapsed wall-clock time is exactly
zero does not produce a defined (infinite, clamped or guarded) bandwidth:
the division `Mbytes_downloaded/time_total` raises `ZeroDivisionError` and
the crawl fails without a report. -/
theorem crawl_zero_elapsed_counterexample :
    crawl findallNil netConst7 (some "text") 0 "http://h/" ["jpg"] "." ⟨[], []⟩ =
      .error .zeroDivisionError := by
  decide

/-- C7 (amended): every crawl that completes reports
`bandwidth = MbytesDownloaded / elapsed` with
`MbytesDownloaded = totalBytes / (1024 * 1024)` and a nonzero elapsed
time; when the elapsed time is zero the division raises
`ZeroDivisionError` instead of producing a report. -/
theorem crawl_bandwidth_amended
    (findall : String → String → List String) (net : String → Except Unit (List Nat))
    (pageResp : Option String) (elapsed : ℚ) (url : String) (file_types : List String)
    (destination : String) (fs : Fs) (r : CrawlReport) (fs' : Fs)
    (h : crawl findall net pageResp elapsed url file_types destination fs = .ok (r, fs')) :
    r.bandwidth = r.MbytesDownloaded / r.elapsed ∧
    r.MbytesDownloaded = (r.totalBytes : ℚ) / (1024 * 1024) ∧
    r.elapsed = elapsed ∧ elapsed ≠ 0 := by
  unfold crawl at h
  cases hext : extract_urls findall pageResp url file_types with
  | error e => rw [hext] at h; exact absurd h (by simp)
  | ok urls =>
    rw [hext] at h
    simp only [] at h
    cases hcol : crawl_collect net fs destination urls with
    | error e => rw [hcol] at h; exact absurd h (by simp)
    | ok pr =>
      obtain ⟨outs, fs2⟩ := pr
      rw [hcol] at h
      simp only [] at h
      by_cases hz : elapsed = 0
      · rw [if_pos hz] at h; exact absurd h (by simp)
      · rw [if_neg hz] at h
        simp only [Except.ok.injEq, Prod.mk.injEq] at h
        obtain ⟨hr, hfs⟩ := h
        subst hr
        exact ⟨rfl, rfl, rfl, hz⟩

/-- C7 witness: the bandwidth identity at a concrete completed crawl. -/
theorem crawl_bandwidth_amended_witness :
    crawl findallNil netConst7 (some "text") 2 "http://h/" ["jpg"] "." ⟨[], []⟩ =
      .ok (⟨0, 0, 0, 2, 0⟩, ⟨[], []⟩) ∧
    ((⟨0, 0, 0, 2, 0⟩ : CrawlReport).bandwidth =
        (⟨0, 0, 0, 2, 0⟩ : CrawlReport).MbytesDownloaded /
          (⟨0, 0, 0, 2, 0⟩ : CrawlReport).elapsed ∧
     (⟨0, 0, 0, 2, 0⟩ : CrawlReport).MbytesDownloaded =
        (((⟨0, 0, 0, 2, 0⟩ : CrawlReport).totalBytes : ℚ)) / (1024 * 1024) ∧
     (⟨0, 0, 0, 2, 0⟩ : CrawlReport).elapsed = 2 ∧ (2 : ℚ) ≠ 0) := by
  have hcrawl : crawl findallNil netConst7 (some "text") 2 "http://h/" ["jpg"] "." ⟨[], []⟩ =
      .ok (⟨0, 0, 0, 2, 0⟩, ⟨[], []⟩) := by
    have hzero : extract_urls findallNil (some "text") "http://h/" ["jpg"] = .ok [] := by
      decide
    unfold crawl
    rw [hzero]
    norm_num [crawl_collect]
  exact ⟨hcrawl,
    crawl_bandwidth_amended findallNil netConst7 (some "text") 2 "http://h/" ["jpg"] "."
      ⟨[], []⟩ ⟨0, 0, 0, 2, 0⟩ ⟨[], []⟩ hcrawl⟩

/-! ## C8 -/

theorem asString_data (s : String) : s.data.asString = s := rfl

theorem data_ne_nil (s : String) (h : s ≠ "") : s.data ≠ [] := by
  intro hd
  apply h
  cases s with
  | mk l => cases hd; rfl

theorem urlsplitFrag_scheme (scheme netloc rest : List Char) :
    (urlsplitFrag scheme netloc rest).scheme = scheme := by
  unfold urlsplitFrag
  split <;> split <;> rfl

theorem urlsplitFrag_netloc (scheme netloc rest : List Char) :
    (urlsplitFrag scheme netloc rest).netloc = netloc := by
  unfold urlsplitFrag
  split <;> split <;> rfl

theorem parseOfSplit_scheme (s : SplitResult) :
    (parseOfSplit s).scheme = s.scheme := by
  unfold parseOfSplit
  split <;> rfl

theorem parseOfSplit_netloc (s : SplitResult) :
    (parseOfSplit s).netloc = s.netloc := by
  unfold parseOfSplit
  split <;> rfl

theorem urlsplitRest_scheme (scheme rest : List Char) :
    (urlsplitRest scheme rest).scheme = scheme := by
  unfold urlsplitRest
  split <;> rw [urlsplitFrag_scheme]

/-- An url with no scheme prefix and no leading `//` parses to the default
scheme and an empty netloc. -/
theorem urlparse_of_relative (url d : List Char)
    (h1 : splitScheme (removeUnsafe url) = none)
    (h2 : (removeUnsafe url).take 2 ≠ ['/', '/']) :
    (urlparse url d).scheme = d ∧ (urlparse url d).netloc = [] := by
  unfold urlparse urlsplit
  rw [h1]
  unfold urlsplitRest
  rw [if_neg h2]
  exact ⟨by rw [parseOfSplit_scheme, urlsplitFrag_scheme],
         by rw [parseOfSplit_netloc, urlsplitFrag_netloc]⟩

/-- An url with a scheme prefix parses to that (lower-cased) scheme,
whatever the default. -/
theorem urlparse_of_scheme (url d s rest : List Char)
    (h : splitScheme (removeUnsafe url) = some (s, rest)) :
    (urlparse url d).scheme = s := by
  unfold urlparse urlsplit
  rw [h]
  rw [parseOfSplit_scheme, urlsplitRest_scheme]

theorem uses_relative_sub : ∀ s ∈ uses_relative, s ∈ uses_netloc := by decide

/-- C8 counterexample: the candidate `//b/c` is relative (it has no
scheme), yet `resolve_url` gives it the authority `b`, not the base's
authority `a`, and does not return it unchanged either: the claim's two
arms are both violated by network-path references. -/
theorem resolve_url_network_path_counterexample :
    resolve_url "http://a/x" "//b/c" = "http://b/c" ∧
    splitScheme (removeUnsafe "//b/c".data) = none ∧
    (urlsplit "http://a/x".data []).netloc = "a".data ∧
    (urlsplit "http://b/c".data []).netloc = "b".data ∧
    ("http://b/c" : String) ≠ "//b/c" ∧ "b".data ≠ "a".data := by
  exact ⟨by decide, by decide, by decide, by decide, by decide, by decide⟩

/-- C8 (amended): for nonempty base and candidate, (i) when the candidate
has neither a scheme nor an authority (no leading `//`) and the base's
scheme takes part in relative resolution, the result is built from the
base's scheme and the base's authority; (ii) when the candidate carries its
own scheme and that scheme differs from the base's (or is not a
relative-use scheme), the candidate is returned unchanged.  A network-path
reference `//host/...` instead keeps its own authority, and a same-scheme
candidate such as `http:g` is resolved rather than returned unchanged. -/
theorem resolve_url_amended (base url : String) (hb : base ≠ "") (hu : url ≠ "") :
    ((splitScheme (removeUnsafe url.data) = none ∧
      (removeUnsafe url.data).take 2 ≠ ['/', '/'] ∧
      (urlparse base.data []).scheme ∈ uses_relative) →
      ∃ p pa q f,
        resolve_url base url =
          (urlunparse ⟨(urlparse base.data []).scheme, (urlparse base.data []).netloc,
                       p, pa, q, f⟩).asString) ∧
    (∀ s rest, splitScheme (removeUnsafe url.data) = some (s, rest) →
      (s ≠ (urlparse base.data []).scheme ∨ s ∉ uses_relative) →
      resolve_url base url = url) := by
  have hbd : base.data ≠ [] := data_ne_nil base hb
  have hud : url.data ≠ [] := data_ne_nil url hu
  constructor
  · rintro ⟨h1, h2, hrel⟩
    obtain ⟨hs, hn⟩ :=
      urlparse_of_relative url.data (urlparse base.data []).scheme h1 h2
    have hnet : (urlparse base.data []).scheme ∈ uses_netloc :=
      uses_relative_sub _ hrel
    unfold resolve_url urljoin
    rw [if_neg hbd, if_neg hud]
    simp only [hs, hn]
    rw [if_neg (by simp [hrel])]
    rw [if_neg (by simp)]
    rw [if_pos hnet]
    by_cases hp : (urlparse url.data (urlparse base.data []).scheme).path = [] ∧
        (urlparse url.data (urlparse base.data []).scheme).params = []
    · rw [if_pos hp]
      exact ⟨(urlparse base.data []).path, (urlparse base.data []).params, _, _, rfl⟩
    · rw [if_neg hp]
      exact ⟨joinPath (urlparse base.data []).path
               (urlparse url.data (urlparse base.data []).scheme).path, _, _, _, rfl⟩
  · rintro s rest hsome hcond
    have hus : (urlparse url.data (urlparse base.data []).scheme).scheme = s :=
      urlparse_of_scheme url.data (urlparse base.data []).scheme s rest hsome
    unfold resolve_url urljoin
    rw [if_neg hbd, if_neg hud]
    simp only [hus]
    rw [if_pos (by tauto)]
    exact asString_data url

/-- C8 witness: the amended theorem at the relative candidate `y/z` against
the base `http://a/x`. -/
theorem resolve_url_amended_witness :
    ("http://a/x" : String) ≠ "" ∧ ("y/z" : String) ≠ "" ∧
    splitScheme (removeUnsafe "y/z".data) = none ∧
    (removeUnsafe "y/z".data).take 2 ≠ ['/', '/'] ∧
    (urlparse "http://a/x".data []).scheme ∈ uses_relative ∧
    (∃ p pa q f,
      resolve_url "http://a/x" "y/z" =
        (urlunparse ⟨(urlparse "http://a/x".data []).scheme,
                     (urlparse "http://a/x".data []).netloc, p, pa, q, f⟩).asString) :=
  ⟨by decide, by decide, by decide, by decide, by decide,
   (resolve_url_amended "http://a/x" "y/z" (by decide) (by decide)).1
     ⟨by decide, by decide, by decide⟩⟩

/-- C9 witness: the overwrite theorem at a concrete URL fetched twice with
different bytes. -/
theorem download_url_overwrite_witness :
    netConst7 "http://h/a.jpg" = .ok [7] ∧
    netTwo "http://h/a.jpg" = .ok [0, 0] ∧
    dlPath "." "http://h/a.jpg" ∉ (Fs.mk [] []).badPaths ∧
    countKey (Fs.mk [] []).files (dlPath "." "http://h/a.jpg") ≤ 1 ∧
    (∃ fs1 fs2,
      download_url netConst7 ⟨[], []⟩ "http://h/a.jpg" "." =
        .ok (some (dlPath "." "http://h/a.jpg"), fs1) ∧
      download_url netTwo fs1 "http://h/a.jpg" "." =
        .ok (some (dlPath "." "http://h/a.jpg"), fs2) ∧
      countKey fs2.files (dlPath "." "http://h/a.jpg") = 1 ∧
      lookupFs fs2.files (dlPath "." "http://h/a.jpg") = some [0, 0]) :=
  ⟨by decide, by decide, by decide, by decide,
   download_url_overwrite netConst7 netTwo ⟨[], []⟩ "http://h/a.jpg" "." [7] [0, 0]
     (by decide) (by decide) (by decide) (by decide)⟩

end Miles
